import Mathlib

/-!
Verification of the stock price notification system (`src/notification.py`).

The embedding models the `NotificationSystem` class: its state (the tracked
ticker list and the `prev_close_prices` table), the baseline loader
`get_prev_close_prices`, the per-tick comparison `check_price`, the SMS
sender `send_sms`, and the `start_monitoring` driver loop.  External
collaborators are modelled as oracles: `MarketData` supplies the per-symbol
daily-close history (oldest first, as yfinance returns it) and the outcome
of the live-price lookup (`fast_info` can yield a price, raise `KeyError`,
or raise some other exception); the Twilio transport is a predicate saying
whether sending a given message body succeeds.  Prices are rationals.
-/

namespace StockNotify

abbrev Symbol := String

abbrev Price := ℚ

/-- Outcome of the live-price lookup `stock.fast_info[...]` for one symbol:
a price, a `KeyError` (the only exception the code catches), or any other
exception. -/
inductive FetchResult where
  | price (p : Price)
  | keyError
  | otherError
deriving DecidableEq, Repr

/-- The market-data oracle: the per-symbol daily-close history (oldest day
first) and the current live-price outcome. -/
structure MarketData where
  history : Symbol → List Price
  current : Symbol → FetchResult

/-- The mutable state of a `NotificationSystem` object: the ticker list set
in `__init__` and the `prev_close_prices` dictionary. -/
@[ext] structure SystemState where
  tickers : List Symbol
  prev_close_prices : Symbol → Option Price

/-- Console output lines the code prints for skip conditions. -/
inductive LogEvent where
  | skipNoHistory (s : Symbol)
  | priceUnavailable (s : Symbol)
deriving DecidableEq, Repr

/-- One delivered SMS: the symbol and direction it reports, and the body. -/
structure Sent where
  symbol : Symbol
  direction : String
  message : String
deriving DecidableEq, Repr

/-- Uncaught Python exceptions that can escape `check_price`: the dict
`KeyError` at `self.prev_close_prices[ticker]`, a non-`KeyError` from the
market-data lookup, or a Twilio failure in `send_sms`. -/
inductive TickError where
  | keyErrorBaseline (s : Symbol)
  | marketError (s : Symbol)
  | transportError (message : String)
deriving DecidableEq, Repr

/-- Baseline selection from the history of one symbol, as in
`get_prev_close_prices`: empty history gives nothing (skip), at least two
rows gives `iloc[0]` (the earliest row), else `iloc[-1]` (the only row). -/
def prevCloseOf (hist : List Price) : Option Price :=
  if hist.length ≥ 2 then hist.head? else hist.getLast?

/-- The loop body of `get_prev_close_prices`, folded over the ticker list:
a ticker with empty history is skipped with a console line, otherwise the
table entry is written. -/
def loadGo (md : MarketData) (tbl : Symbol → Option Price) :
    List Symbol → (Symbol → Option Price) × List LogEvent
  | [] => (tbl, [])
  | t :: rest =>
    match prevCloseOf (md.history t) with
    | none =>
      let r := loadGo md tbl rest
      (r.1, LogEvent.skipNoHistory t :: r.2)
    | some p => loadGo md (Function.update tbl t (some p)) rest

/-- `get_prev_close_prices`: fetch the history of each tracked ticker and record
its baseline in `prev_close_prices`. -/
def get_prev_close_prices (md : MarketData) (st : SystemState) :
    SystemState × List LogEvent :=
  let r := loadGo md st.prev_close_prices st.tickers
  (SystemState.mk st.tickers r.1, r.2)

/-- The body of the SMS sent for an alert, as formatted in `check_price`
(`datetime.now()` is abstracted as the string `now`). -/
def mkMessage (ticker direction now : String) : String :=
  ticker ++ ": " ++ direction ++ " >= 1%, Timestamp: " ++ now

/-- `send_sms`: ask the Twilio transport to deliver the message; a transport
failure surfaces as an exception, which this method does not catch. -/
def send_sms (transport : String → Bool) (message : String) :
    Except TickError Unit :=
  if transport message then Except.ok () else
    Except.error (TickError.transportError message)

/-- What one invocation of `check_price` produced: the SMS messages actually
sent, the console lines printed, and the uncaught exception, if one aborted
the loop (messages sent before the abort are kept). -/
structure TickResult where
  sent : List Sent
  logs : List LogEvent
  err : Option TickError
deriving DecidableEq, Repr

/-- The direction label computed in `check_price`:
`direction` is the string rise when `pct_change > 0` and drop otherwise. -/
def direction (pct : Price) : String := if pct > 0 then "rise" else "drop"

/-- The loop body of `check_price` over the remaining tickers.  For each
ticker: look up the live price (`KeyError` prints a line and continues, any
other exception propagates), read the baseline (an absent key raises an
uncaught dict `KeyError`), compute the percentage change, and when its
absolute value reaches 1 send an SMS labelled rise or drop (a transport
failure propagates).  The state is threaded through untouched because the
loop only reads it. -/
def checkGo (md : MarketData) (transport : String → Bool) (now : String)
    (st : SystemState) : List Symbol → SystemState × TickResult
  | [] => (st, TickResult.mk [] [] none)
  | t :: rest =>
    match md.current t with
    | FetchResult.otherError =>
      (st, TickResult.mk [] [] (some (TickError.marketError t)))
    | FetchResult.keyError =>
      let r := checkGo md transport now st rest
      (r.1, TickResult.mk r.2.sent (LogEvent.priceUnavailable t :: r.2.logs) r.2.err)
    | FetchResult.price c =>
      match st.prev_close_prices t with
      | none => (st, TickResult.mk [] [] (some (TickError.keyErrorBaseline t)))
      | some b =>
        let pct : Price := (c - b) / b * 100
        if |pct| ≥ 1 then
          let msg : String := mkMessage t (direction pct) now
          match send_sms transport msg with
          | Except.error e => (st, TickResult.mk [] [] (some e))
          | Except.ok _ =>
            let r := checkGo md transport now st rest
            (r.1, TickResult.mk (Sent.mk t (direction pct) msg :: r.2.sent) r.2.logs r.2.err)
        else checkGo md transport now st rest

/-- `check_price`: run the comparison loop over `self.tickers`. -/
def check_price (md : MarketData) (transport : String → Bool) (now : String)
    (st : SystemState) : SystemState × TickResult :=
  checkGo md transport now st st.tickers

/-- Events of one run, for the `start_monitoring` contract. -/
inductive RunEvent where
  | loadBaselines
  | tick
deriving DecidableEq, Repr

/-- The `while True` scheduler loop, truncated to at most `fuel` due ticks:
tick number `i` runs `check_price` against the market data of that minute
and timestamp.  An exception escaping `check_price` propagates through
`schedule.run_pending()` and terminates the loop, so a tick ending with an
uncaught error is the last event of the run. -/
def scheduleLoop (tickMd : ℕ → MarketData) (transport : String → Bool)
    (now : ℕ → String) : ℕ → ℕ → SystemState → SystemState × List RunEvent
  | 0, _, st => (st, [])
  | fuel + 1, i, st =>
    let r := check_price (tickMd i) transport (now i) st
    match r.2.err with
    | some _ => (r.1, [RunEvent.tick])
    | none =>
      let rest := scheduleLoop tickMd transport now fuel (i + 1) r.1
      (rest.1, RunEvent.tick :: rest.2)

/-- `start_monitoring`: load the baselines once, then run the scheduler
loop; `md0` is the market data seen at startup. -/
def start_monitoring (md0 : MarketData) (tickMd : ℕ → MarketData)
    (transport : String → Bool) (now : ℕ → String) (fuel : ℕ)
    (st : SystemState) : SystemState × List RunEvent :=
  let l := get_prev_close_prices md0 st
  let r := scheduleLoop tickMd transport now fuel 0 l.1
  (r.1, RunEvent.loadBaselines :: r.2)

/-! ### Step equations for the `check_price` loop -/

/-- A live-price lookup raising a non-`KeyError` exception aborts the
loop. -/
theorem checkGo_cons_other (md : MarketData) (tr : String → Bool)
    (now : String) (st : SystemState) (t : Symbol) (rest : List Symbol)
    (h : md.current t = FetchResult.otherError) :
    checkGo md tr now st (t :: rest) =
      (st, TickResult.mk [] [] (some (TickError.marketError t))) := by
  simp [checkGo, h]

/-- A live-price lookup raising `KeyError` prints a line and moves on to
the remaining tickers. -/
theorem checkGo_cons_keyError (md : MarketData) (tr : String → Bool)
    (now : String) (st : SystemState) (t : Symbol) (rest : List Symbol)
    (h : md.current t = FetchResult.keyError) :
    checkGo md tr now st (t :: rest) =
      ((checkGo md tr now st rest).1,
        TickResult.mk (checkGo md tr now st rest).2.sent
          (LogEvent.priceUnavailable t :: (checkGo md tr now st rest).2.logs)
          (checkGo md tr now st rest).2.err) := by
  simp [checkGo, h]

/-- A ticker with a live price but no baseline entry raises the uncaught
dict `KeyError`, aborting the loop. -/
theorem checkGo_cons_noBaseline (md : MarketData) (tr : String → Bool)
    (now : String) (st : SystemState) (t : Symbol) (rest : List Symbol)
    (c : Price) (h : md.current t = FetchResult.price c)
    (hb : st.prev_close_prices t = none) :
    checkGo md tr now st (t :: rest) =
      (st, TickResult.mk [] [] (some (TickError.keyErrorBaseline t))) := by
  simp [checkGo, h, hb]

/-- Below the 1% threshold nothing happens for this ticker. -/
theorem checkGo_cons_below (md : MarketData) (tr : String → Bool)
    (now : String) (st : SystemState) (t : Symbol) (rest : List Symbol)
    (c b : Price) (h : md.current t = FetchResult.price c)
    (hb : st.prev_close_prices t = some b)
    (hth : ¬ |(c - b) / b * 100| ≥ 1) :
    checkGo md tr now st (t :: rest) = checkGo md tr now st rest := by
  simp [checkGo, h, hb, hth]

/-- At or above the threshold with a working transport, the SMS goes out
and the loop continues. -/
theorem checkGo_cons_alert (md : MarketData) (tr : String → Bool)
    (now : String) (st : SystemState) (t : Symbol) (rest : List Symbol)
    (c b : Price) (h : md.current t = FetchResult.price c)
    (hb : st.prev_close_prices t = some b)
    (hth : |(c - b) / b * 100| ≥ 1)
    (hsend : tr (mkMessage t (direction ((c - b) / b * 100)) now) = true) :
    checkGo md tr now st (t :: rest) =
      ((checkGo md tr now st rest).1,
        TickResult.mk
          (Sent.mk t (direction ((c - b) / b * 100))
              (mkMessage t (direction ((c - b) / b * 100)) now) ::
            (checkGo md tr now st rest).2.sent)
          (checkGo md tr now st rest).2.logs
          (checkGo md tr now st rest).2.err) := by
  simp [checkGo, h, hb, hth, send_sms, hsend]

/-- At or above the threshold with a failing transport, the Twilio
exception aborts the loop. -/
theorem checkGo_cons_alertFail (md : MarketData) (tr : String → Bool)
    (now : String) (st : SystemState) (t : Symbol) (rest : List Symbol)
    (c b : Price) (h : md.current t = FetchResult.price c)
    (hb : st.prev_close_prices t = some b)
    (hth : |(c - b) / b * 100| ≥ 1)
    (hsend : tr (mkMessage t (direction ((c - b) / b * 100)) now) = false) :
    checkGo md tr now st (t :: rest) =
      (st, TickResult.mk [] []
        (some (TickError.transportError
          (mkMessage t (direction ((c - b) / b * 100)) now)))) := by
  simp [checkGo, h, hb, hth, send_sms, hsend]

/-! ### Helper lemmas -/

/-- The `check_price` loop threads the state through unchanged. -/
theorem checkGo_fst (md : MarketData) (tr : String → Bool) (now : String)
    (st : SystemState) (l : List Symbol) : (checkGo md tr now st l).1 = st := by
  induction l with
  | nil => rfl
  | cons t rest ih =>
    cases h : md.current t with
    | otherError => rw [checkGo_cons_other md tr now st t rest h]
    | keyError => rw [checkGo_cons_keyError md tr now st t rest h]; exact ih
    | price c =>
      cases hb : st.prev_close_prices t with
      | none => rw [checkGo_cons_noBaseline md tr now st t rest c h hb]
      | some b =>
        by_cases hth : |((c - b) / b * 100 : Price)| ≥ 1
        · cases hsend : tr (mkMessage t (direction ((c - b) / b * 100)) now) with
          | false => rw [checkGo_cons_alertFail md tr now st t rest c b h hb hth hsend]
          | true =>
            rw [checkGo_cons_alert md tr now st t rest c b h hb hth hsend]
            exact ih
        · rw [checkGo_cons_below md tr now st t rest c b h hb hth]
          exact ih

/-- Every SMS sent during the loop reports one of the looped-over symbols. -/
theorem checkGo_sent_mem (md : MarketData) (tr : String → Bool) (now : String)
    (st : SystemState) (l : List Symbol) (n : Sent)
    (hn : n ∈ (checkGo md tr now st l).2.sent) : n.symbol ∈ l := by
  induction l with
  | nil => simp [checkGo] at hn
  | cons t rest ih =>
    cases h : md.current t with
    | otherError =>
      rw [checkGo_cons_other md tr now st t rest h] at hn
      simp at hn
    | keyError =>
      rw [checkGo_cons_keyError md tr now st t rest h] at hn
      exact List.mem_cons_of_mem t (ih hn)
    | price c =>
      cases hb : st.prev_close_prices t with
      | none =>
        rw [checkGo_cons_noBaseline md tr now st t rest c h hb] at hn
        simp at hn
      | some b =>
        by_cases hth : |((c - b) / b * 100 : Price)| ≥ 1
        · cases hsend : tr (mkMessage t (direction ((c - b) / b * 100)) now) with
          | false =>
            rw [checkGo_cons_alertFail md tr now st t rest c b h hb hth hsend] at hn
            simp at hn
          | true =>
            rw [checkGo_cons_alert md tr now st t rest c b h hb hth hsend] at hn
            simp only [List.mem_cons] at hn
            rcases hn with h1 | h1
            · rw [h1]
              exact List.mem_cons_self t rest
            · exact List.mem_cons_of_mem t (ih h1)
        · rw [checkGo_cons_below md tr now st t rest c b h hb hth] at hn
          exact List.mem_cons_of_mem t (ih hn)

/-- No SMS reports a symbol that is not looped over. -/
theorem checkGo_sent_filter_nil (md : MarketData) (tr : String → Bool)
    (now : String) (st : SystemState) (l : List Symbol) (s : Symbol)
    (hs : s ∉ l) :
    (checkGo md tr now st l).2.sent.filter (fun n => n.symbol == s) = [] := by
  rw [List.filter_eq_nil_iff]
  intro n hn hps
  exact hs (beq_iff_eq.mp hps ▸ checkGo_sent_mem md tr now st l n hn)

/-- The SMS traffic for one symbol during a completed loop run: exactly one
message, labelled by the sign of the percentage change, when the 1%
threshold is met, and none otherwise. -/
theorem checkGo_sent_filter (md : MarketData) (tr : String → Bool)
    (now : String) (st : SystemState) (l : List Symbol) (s : Symbol)
    (B C : Price) (hnd : l.Nodup) (hs : s ∈ l)
    (hB : st.prev_close_prices s = some B)
    (hC : md.current s = FetchResult.price C)
    (hok : (checkGo md tr now st l).2.err = none) :
    (checkGo md tr now st l).2.sent.filter (fun n => n.symbol == s) =
      if |(C - B) / B * 100| ≥ 1
      then [Sent.mk s (direction ((C - B) / B * 100))
              (mkMessage s (direction ((C - B) / B * 100)) now)]
      else [] := by
  induction l with
  | nil => simp at hs
  | cons t rest ih =>
    obtain ⟨htr, hndr⟩ := List.nodup_cons.mp hnd
    rcases List.mem_cons.mp hs with h1 | h1
    · subst h1
      by_cases hth : |((C - B) / B * 100 : Price)| ≥ 1
      · cases hsend : tr (mkMessage s (direction ((C - B) / B * 100)) now) with
        | false =>
          rw [checkGo_cons_alertFail md tr now st s rest C B hC hB hth hsend] at hok
          simp at hok
        | true =>
          rw [checkGo_cons_alert md tr now st s rest C B hC hB hth hsend]
          simp only [List.filter_cons]
          rw [if_pos hth]
          have hhead : ((Sent.mk s (direction ((C - B) / B * 100))
              (mkMessage s (direction ((C - B) / B * 100)) now)).symbol == s) = true := by
            simp
          rw [hhead]
          simp [checkGo_sent_filter_nil md tr now st rest s htr]
      · rw [checkGo_cons_below md tr now st s rest C B hC hB hth]
        rw [if_neg hth]
        exact checkGo_sent_filter_nil md tr now st rest s htr
    · have hts : t ≠ s := fun h => htr (h ▸ h1)
      cases hcur : md.current t with
      | otherError =>
        rw [checkGo_cons_other md tr now st t rest hcur] at hok
        simp at hok
      | keyError =>
        rw [checkGo_cons_keyError md tr now st t rest hcur] at hok ⊢
        exact ih hndr h1 hok
      | price c =>
        cases hb : st.prev_close_prices t with
        | none =>
          rw [checkGo_cons_noBaseline md tr now st t rest c hcur hb] at hok
          simp at hok
        | some b =>
          by_cases hth2 : |((c - b) / b * 100 : Price)| ≥ 1
          · cases hsend : tr (mkMessage t (direction ((c - b) / b * 100)) now) with
            | false =>
              rw [checkGo_cons_alertFail md tr now st t rest c b hcur hb hth2 hsend] at hok
              simp at hok
            | true =>
              rw [checkGo_cons_alert md tr now st t rest c b hcur hb hth2 hsend] at hok ⊢
              simp only [List.filter_cons]
              have hhead : ((Sent.mk t (direction ((c - b) / b * 100))
                  (mkMessage t (direction ((c - b) / b * 100)) now)).symbol == s) = false := by
                simpa using hts
              rw [hhead]
              simp only [Bool.false_eq_true, if_false]
              exact ih hndr h1 hok
          · rw [checkGo_cons_below md tr now st t rest c b hcur hb hth2] at hok ⊢
            exact ih hndr h1 hok

/-- A baseline exists for a history exactly when the history is non-empty. -/
theorem prevCloseOf_isSome (hist : List Price) :
    (prevCloseOf hist).isSome = true ↔ hist ≠ [] := by
  cases hist with
  | nil => simp [prevCloseOf]
  | cons p t =>
    constructor
    · intro _; simp
    · intro _
      simp only [prevCloseOf]
      split
      · simp
      · simp [List.getLast?_isSome]

/-- Pointwise description of the table built by the baseline loop: a symbol
in the list with non-empty history gets its baseline written; any other
symbol keeps its prior entry. -/
theorem loadGo_fst_apply (md : MarketData) (tbl : Symbol → Option Price)
    (l : List Symbol) (s : Symbol) :
    (loadGo md tbl l).1 s =
      if s ∈ l ∧ (prevCloseOf (md.history s)).isSome
      then prevCloseOf (md.history s) else tbl s := by
  induction l generalizing tbl with
  | nil => simp [loadGo]
  | cons t rest ih =>
    cases hp : prevCloseOf (md.history t) with
    | none =>
      simp only [loadGo, hp]
      rw [ih]
      by_cases hst : s = t
      · subst hst
        simp [hp]
      · simp [List.mem_cons, hst]
    | some p =>
      simp only [loadGo, hp]
      rw [ih]
      by_cases hst : s = t
      · subst hst
        by_cases hsr : s ∈ rest <;>
          simp [hp, hsr, Function.update_same]
      · rw [Function.update_noteq hst]
        simp [List.mem_cons, hst]

/-- A looped-over symbol with no baseline gets a skip line printed. -/
theorem loadGo_skip_logged (md : MarketData) (tbl : Symbol → Option Price)
    (l : List Symbol) (s : Symbol) (hs : s ∈ l)
    (hp : prevCloseOf (md.history s) = none) :
    LogEvent.skipNoHistory s ∈ (loadGo md tbl l).2 := by
  induction l generalizing tbl with
  | nil => simp at hs
  | cons t rest ih =>
    rcases List.mem_cons.mp hs with h | h
    · subst h
      simp only [loadGo, hp]
      exact List.mem_cons_self _ _
    · cases hq : prevCloseOf (md.history t) with
      | none =>
        simp only [loadGo, hq]
        exact List.mem_cons_of_mem _ (ih _ h)
      | some p =>
        simp only [loadGo, hq]
        exact ih _ h

/-- The scheduler loop emits tick events only, however many ticks run
before the loop ends or an escaping exception kills it. -/
theorem scheduleLoop_snd (tickMd : ℕ → MarketData) (tr : String → Bool)
    (now : ℕ → String) (fuel i : ℕ) (st : SystemState) :
    ∃ n, (scheduleLoop tickMd tr now fuel i st).2 =
      List.replicate n RunEvent.tick := by
  induction fuel generalizing i st with
  | zero => exact ⟨0, rfl⟩
  | succ k ih =>
    cases herr : (check_price (tickMd i) tr (now i) st).2.err with
    | some e =>
      refine ⟨1, ?_⟩
      simp only [scheduleLoop, herr]
      rfl
    | none =>
      obtain ⟨n, hn⟩ :=
        ih (i + 1) (check_price (tickMd i) tr (now i) st).1
      refine ⟨n + 1, ?_⟩
      simp only [scheduleLoop, herr, List.replicate]
      rw [hn]

/-! ### Concrete fixtures used by scenario theorems and witnesses -/

/-- Fixture state: one tracked symbol with baseline 100. -/
def stS : SystemState :=
  SystemState.mk ["SPY"] (fun s => if s = "SPY" then some (100 : Price) else none)

/-- Fixture market data: no history, every live price equal to `c`. -/
def mdS (c : Price) : MarketData :=
  MarketData.mk (fun _ => []) (fun _ => FetchResult.price c)

/-! ### Claim theorems -/

/-- C1: for a symbol with baseline B > 0 and a successfully fetched current
price C, a completed `check_price` run sends exactly one message for that
symbol if and only if the absolute percentage change reaches 1, and that
message is labelled rise when the change is positive and drop otherwise. -/
theorem checkPrice_alert_iff (md : MarketData) (tr : String → Bool)
    (now : String) (st : SystemState) (s : Symbol) (B C : Price)
    (hnd : st.tickers.Nodup) (hs : s ∈ st.tickers)
    (hB : st.prev_close_prices s = some B) (hBpos : 0 < B)
    (hC : md.current s = FetchResult.price C)
    (hok : (check_price md tr now st).2.err = none) :
    ((check_price md tr now st).2.sent.countP (fun n => n.symbol == s) = 1 ↔
        |(C - B) / B * 100| ≥ 1) ∧
    (∀ n ∈ (check_price md tr now st).2.sent, n.symbol = s →
        n.direction = if (C - B) / B * 100 > 0 then "rise" else "drop") := by
  simp only [check_price] at hok ⊢
  have hfil := checkGo_sent_filter md tr now st st.tickers s B C hnd hs hB hC hok
  constructor
  · rw [List.countP_eq_length_filter, hfil]
    by_cases hth : |((C - B) / B * 100 : Price)| ≥ 1
    · simp [hth]
    · simp [hth]
  · intro n hn hsym
    have hmem : n ∈ List.filter (fun n => n.symbol == s)
        (checkGo md tr now st st.tickers).2.sent :=
      List.mem_filter.mpr ⟨hn, by simp [hsym]⟩
    rw [hfil] at hmem
    by_cases hth : |((C - B) / B * 100 : Price)| ≥ 1
    · rw [if_pos hth] at hmem
      simp only [List.mem_singleton] at hmem
      rw [hmem]
      rfl
    · rw [if_neg hth] at hmem
      simp at hmem

/-- Witness for C1 at a concrete input: baseline 100, current price 101.5,
one tracked symbol, transport succeeding. -/
theorem checkPrice_alert_iff_witness :
    stS.tickers.Nodup ∧ "SPY" ∈ stS.tickers ∧
    stS.prev_close_prices "SPY" = some 100 ∧ (0 : Price) < 100 ∧
    (mdS 101.5).current "SPY" = FetchResult.price 101.5 ∧
    (check_price (mdS 101.5) (fun _ => true) "ts" stS).2.err = none ∧
    (((check_price (mdS 101.5) (fun _ => true) "ts" stS).2.sent.countP
          (fun n => n.symbol == "SPY") = 1 ↔
        |((101.5 : Price) - 100) / 100 * 100| ≥ 1) ∧
      (∀ n ∈ (check_price (mdS 101.5) (fun _ => true) "ts" stS).2.sent,
          n.symbol = "SPY" →
          n.direction = if ((101.5 : Price) - 100) / 100 * 100 > 0
            then "rise" else "drop")) :=
  ⟨by simp [stS], by simp [stS], by simp [stS], by norm_num, rfl,
    by norm_num +decide [check_price, checkGo, send_sms, mdS, stS, direction,
      mkMessage, abs],
    checkPrice_alert_iff (mdS 101.5) (fun _ => true) "ts" stS "SPY" 100 101.5
      (by simp [stS]) (by simp [stS]) (by simp [stS]) (by norm_num) rfl
      (by norm_num +decide [check_price, checkGo, send_sms, mdS, stS, direction,
        mkMessage, abs])⟩

/-- C6: `check_price` leaves the whole state, the tracked ticker list and
the baseline table alike, exactly unchanged: it only reads them. -/
theorem checkPrice_state_unchanged (md : MarketData) (tr : String → Bool)
    (now : String) (st : SystemState) : (check_price md tr now st).1 = st :=
  checkGo_fst md tr now st st.tickers

/-- C7: the three numeric scenarios with baseline 100: current 101.5 gives
a 1.5 percent change and one rise alert; current 99.2 gives a -0.8 percent
change and no alert; current 98.9 gives a -1.1 percent change and one drop
alert. -/
theorem checkPrice_scenarios :
    ((((101.5 : Price) - 100) / 100 * 100 = 1.5) ∧
      (check_price (mdS 101.5) (fun _ => true) "ts" stS).2 =
        TickResult.mk [Sent.mk "SPY" "rise" (mkMessage "SPY" "rise" "ts")]
          [] none) ∧
    ((((99.2 : Price) - 100) / 100 * 100 = -0.8) ∧
      (check_price (mdS 99.2) (fun _ => true) "ts" stS).2 =
        TickResult.mk [] [] none) ∧
    ((((98.9 : Price) - 100) / 100 * 100 = -1.1) ∧
      (check_price (mdS 98.9) (fun _ => true) "ts" stS).2 =
        TickResult.mk [Sent.mk "SPY" "drop" (mkMessage "SPY" "drop" "ts")]
          [] none) := by
  refine ⟨⟨by norm_num, ?_⟩, ⟨by norm_num, ?_⟩, ⟨by norm_num, ?_⟩⟩ <;>
    norm_num +decide [check_price, checkGo, send_sms, mdS, stS, direction,
      mkMessage, abs]

/-- Fixture for the missing-baseline run: two tracked tickers, no history
for either at startup, live price 100 for both. -/
def mdB : MarketData :=
  MarketData.mk (fun _ => []) (fun _ => FetchResult.price (100 : Price))

/-- Fixture state for the missing-baseline run before loading. -/
def stB : SystemState := SystemState.mk ["AAA", "BBB"] (fun _ => none)

/-- C2, failing input: after startup leaves ticker AAA without a baseline
entry, a tick in which the live price of AAA becomes available does NOT
silently exclude AAA: the unguarded dictionary read
`self.prev_close_prices[ticker]` raises an uncaught `KeyError`, so the tick
aborts and ticker BBB is never evaluated (no message and no log line for
it), contrary to the claim that the tick still completes the remaining
tickers. -/
theorem checkPrice_missingBaseline_aborts :
    (get_prev_close_prices mdB stB).1.prev_close_prices "AAA" = none ∧
    check_price mdB (fun _ => true) "ts" (get_prev_close_prices mdB stB).1 =
      ((get_prev_close_prices mdB stB).1,
        TickResult.mk [] [] (some (TickError.keyErrorBaseline "AAA"))) := by
  constructor <;>
    norm_num +decide [check_price, checkGo, get_prev_close_prices, loadGo,
      prevCloseOf, mdB, stB]

/-- C3: starting from the empty table, `get_prev_close_prices` gives each
tracked symbol with a two-or-more-day history the close of the earliest
returned day, gives a one-day history its single close, and omits a symbol
with empty history while printing a skip line. -/
theorem getPrevClosePrices_baseline_spec (md : MarketData) (st : SystemState)
    (s : Symbol) (h0 : st.prev_close_prices = fun _ => none)
    (hs : s ∈ st.tickers) :
    (md.history s = [] →
        (get_prev_close_prices md st).1.prev_close_prices s = none ∧
        LogEvent.skipNoHistory s ∈ (get_prev_close_prices md st).2) ∧
    (∀ p q t2, md.history s = p :: q :: t2 →
        (get_prev_close_prices md st).1.prev_close_prices s = some p) ∧
    (∀ p, md.history s = [p] →
        (get_prev_close_prices md st).1.prev_close_prices s = some p) := by
  refine ⟨?_, ?_, ?_⟩
  · intro hh
    constructor
    · simp only [get_prev_close_prices]
      rw [loadGo_fst_apply]
      simp [hh, prevCloseOf, h0]
    · simp only [get_prev_close_prices]
      exact loadGo_skip_logged md st.prev_close_prices st.tickers s hs
        (by simp [hh, prevCloseOf])
  · intro p q t2 hh
    simp only [get_prev_close_prices]
    rw [loadGo_fst_apply]
    have hpc : prevCloseOf (md.history s) = some p := by
      rw [hh]
      simp only [prevCloseOf, List.length_cons]
      rw [if_pos (by omega)]
      rfl
    simp [hs, hpc]
  · intro p hh
    simp only [get_prev_close_prices]
    rw [loadGo_fst_apply]
    have hpc : prevCloseOf (md.history s) = some p := by
      rw [hh]
      simp [prevCloseOf]
    simp [hs, hpc]

/-- Fixture market data for the C3 witness: ticker AAA has no history,
BBB has a two-day history, CCC a one-day history. -/
def mdL : MarketData :=
  MarketData.mk
    (fun s => if s = "BBB" then [3, 4] else if s = "CCC" then [5] else [])
    (fun _ => FetchResult.keyError)

/-- Fixture state for the C3 witness. -/
def stL : SystemState := SystemState.mk ["AAA", "BBB", "CCC"] (fun _ => none)

/-- Witness for C3 at a concrete input: ticker BBB with two-day history
[3, 4] gets the earlier close 3. -/
theorem getPrevClosePrices_baseline_spec_witness :
    stL.prev_close_prices = (fun _ => none) ∧ "BBB" ∈ stL.tickers ∧
    mdL.history "BBB" = [3, 4] ∧
    (get_prev_close_prices mdL stL).1.prev_close_prices "BBB" = some 3 :=
  ⟨rfl, by simp [stL], rfl,
    (getPrevClosePrices_baseline_spec mdL stL "BBB" rfl (by simp [stL])).2.1
      3 4 [] rfl⟩

/-- C4: when the live-price lookup for the head ticker raises `KeyError`,
`check_price` logs the unavailable-price line, sends nothing for that
ticker, and evaluates the remaining tickers exactly as it would have
without it; the state is unchanged, so the ticker stays eligible for the
next tick. -/
theorem checkPrice_keyError_skips (md : MarketData) (tr : String → Bool)
    (now : String) (st : SystemState) (t : Symbol) (rest : List Symbol)
    (hT : st.tickers = t :: rest) (hKE : md.current t = FetchResult.keyError) :
    check_price md tr now st =
      ((checkGo md tr now st rest).1,
        TickResult.mk (checkGo md tr now st rest).2.sent
          (LogEvent.priceUnavailable t :: (checkGo md tr now st rest).2.logs)
          (checkGo md tr now st rest).2.err) ∧
    (check_price md tr now st).1 = st ∧
    (t ∉ rest → ∀ n ∈ (check_price md tr now st).2.sent, n.symbol ≠ t) := by
  have h1 : check_price md tr now st =
      ((checkGo md tr now st rest).1,
        TickResult.mk (checkGo md tr now st rest).2.sent
          (LogEvent.priceUnavailable t :: (checkGo md tr now st rest).2.logs)
          (checkGo md tr now st rest).2.err) := by
    simp only [check_price, hT]
    exact checkGo_cons_keyError md tr now st t rest hKE
  refine ⟨h1, ?_, ?_⟩
  · simp only [check_price]
    exact checkGo_fst md tr now st st.tickers
  · intro hnr n hn hsym
    rw [h1] at hn
    exact hnr (hsym ▸ checkGo_sent_mem md tr now st rest n hn)

/-- Fixture market data for the C4 and C9 witnesses: the live price of AAA
raises `KeyError`, BBB trades at 101.5. -/
def mdK : MarketData :=
  MarketData.mk (fun _ => [])
    (fun s => if s = "BBB" then FetchResult.price (101.5 : Price)
      else FetchResult.keyError)

/-- Fixture state with two tracked tickers, both with baseline 100. -/
def stK : SystemState :=
  SystemState.mk ["AAA", "BBB"] (fun _ => some (100 : Price))

/-- Witness for C4 at a concrete input: AAA raises `KeyError`, BBB still
gets evaluated and alerts. -/
theorem checkPrice_keyError_skips_witness :
    stK.tickers = "AAA" :: ["BBB"] ∧
    mdK.current "AAA" = FetchResult.keyError ∧
    (check_price mdK (fun _ => true) "ts" stK =
      ((checkGo mdK (fun _ => true) "ts" stK ["BBB"]).1,
        TickResult.mk (checkGo mdK (fun _ => true) "ts" stK ["BBB"]).2.sent
          (LogEvent.priceUnavailable "AAA" ::
            (checkGo mdK (fun _ => true) "ts" stK ["BBB"]).2.logs)
          (checkGo mdK (fun _ => true) "ts" stK ["BBB"]).2.err) ∧
      (check_price mdK (fun _ => true) "ts" stK).1 = stK ∧
      ("AAA" ∉ (["BBB"] : List Symbol) →
        ∀ n ∈ (check_price mdK (fun _ => true) "ts" stK).2.sent,
          n.symbol ≠ "AAA")) :=
  ⟨rfl, by simp [mdK],
    checkPrice_keyError_skips mdK (fun _ => true) "ts" stK "AAA" ["BBB"]
      rfl (by simp [mdK])⟩

/-- C5: a transport failure is not caught anywhere: `send_sms` surfaces the
Twilio exception, and when the head ticker of a tick alerts with a failing
transport, `check_price` ends with that exception, the remaining tickers
unevaluated, with no retry and no recovery path. -/
theorem transportFailure_propagates (md : MarketData) (tr : String → Bool)
    (now : String) (st : SystemState) (t : Symbol) (rest : List Symbol)
    (C B : Price) (msg : String)
    (hT : st.tickers = t :: rest) (hC : md.current t = FetchResult.price C)
    (hB : st.prev_close_prices t = some B)
    (hth : |(C - B) / B * 100| ≥ 1)
    (hmsg : msg = mkMessage t (direction ((C - B) / B * 100)) now)
    (hsend : tr msg = false) :
    send_sms tr msg = Except.error (TickError.transportError msg) ∧
    check_price md tr now st =
      (st, TickResult.mk [] [] (some (TickError.transportError msg))) := by
  constructor
  · simp [send_sms, hsend]
  · simp only [check_price, hT]
    subst hmsg
    exact checkGo_cons_alertFail md tr now st t rest C B hC hB hth hsend

/-- Witness for C5 at a concrete input: one tracked ticker alerting at
101.5 against baseline 100 with a transport that always fails. -/
theorem transportFailure_propagates_witness :
    stS.tickers = "SPY" :: [] ∧
    (mdS 101.5).current "SPY" = FetchResult.price 101.5 ∧
    stS.prev_close_prices "SPY" = some 100 ∧
    |((101.5 : Price) - 100) / 100 * 100| ≥ 1 ∧
    mkMessage "SPY" (direction (((101.5 : Price) - 100) / 100 * 100)) "ts" =
      mkMessage "SPY" (direction (((101.5 : Price) - 100) / 100 * 100)) "ts" ∧
    (fun (_ : String) => false)
        (mkMessage "SPY" (direction (((101.5 : Price) - 100) / 100 * 100)) "ts") =
      false ∧
    (send_sms (fun _ => false)
        (mkMessage "SPY" (direction (((101.5 : Price) - 100) / 100 * 100)) "ts") =
      Except.error (TickError.transportError
        (mkMessage "SPY" (direction (((101.5 : Price) - 100) / 100 * 100)) "ts")) ∧
    check_price (mdS 101.5) (fun _ => false) "ts" stS =
      (stS, TickResult.mk [] [] (some (TickError.transportError
        (mkMessage "SPY" (direction (((101.5 : Price) - 100) / 100 * 100)) "ts"))))) :=
  ⟨rfl, rfl, by simp [stS], by norm_num [abs], rfl, rfl,
    transportFailure_propagates (mdS 101.5) (fun _ => false) "ts" stS "SPY" []
      101.5 100 _ rfl rfl (by simp [stS]) (by norm_num [abs]) rfl rfl⟩

/-- C8: in every run of `start_monitoring`, whatever the market data,
transport behaviour and loop bound, baseline loading happens exactly once
and produces the first event of the trace, before every tick: the event
trace is the load event followed by nothing but ticks (as many as ran
before the loop was stopped or killed by an escaping exception). -/
theorem startMonitoring_loadOnce (md0 : MarketData) (tickMd : ℕ → MarketData)
    (tr : String → Bool) (now : ℕ → String) (fuel : ℕ) (st : SystemState) :
    (∃ n, (start_monitoring md0 tickMd tr now fuel st).2 =
      RunEvent.loadBaselines :: List.replicate n RunEvent.tick) ∧
    (start_monitoring md0 tickMd tr now fuel st).2.count
      RunEvent.loadBaselines = 1 := by
  obtain ⟨n, hn⟩ :=
    scheduleLoop_snd tickMd tr now fuel 0 (get_prev_close_prices md0 st).1
  constructor
  · refine ⟨n, ?_⟩
    simp only [start_monitoring]
    rw [hn]
  · simp only [start_monitoring]
    rw [hn]
    simp [List.count_cons, List.count_replicate]

/-- C9: only a `KeyError` from the live-price lookup is treated as price
unavailable and skipped; any other exception from the market-data query
aborts `check_price`, leaving every remaining ticker unevaluated. -/
theorem checkPrice_exception_policy (md : MarketData) (tr : String → Bool)
    (now : String) (st : SystemState) (t : Symbol) (rest : List Symbol)
    (hT : st.tickers = t :: rest) :
    (md.current t = FetchResult.keyError →
      (check_price md tr now st).2.sent = (checkGo md tr now st rest).2.sent ∧
      (check_price md tr now st).2.err = (checkGo md tr now st rest).2.err) ∧
    (md.current t = FetchResult.otherError →
      check_price md tr now st =
        (st, TickResult.mk [] [] (some (TickError.marketError t)))) := by
  constructor
  · intro hKE
    simp only [check_price, hT]
    rw [checkGo_cons_keyError md tr now st t rest hKE]
    exact ⟨rfl, rfl⟩
  · intro hOE
    simp only [check_price, hT]
    exact checkGo_cons_other md tr now st t rest hOE

/-- Fixture market data for the C9 witness: the live-price query for AAA
raises a non-`KeyError` exception. -/
def mdE : MarketData :=
  MarketData.mk (fun _ => []) (fun _ => FetchResult.otherError)

/-- Witness for C9 at a concrete input: a non-`KeyError` exception on the
first ticker aborts the tick. -/
theorem checkPrice_exception_policy_witness :
    stK.tickers = "AAA" :: ["BBB"] ∧
    mdE.current "AAA" = FetchResult.otherError ∧
    check_price mdE (fun _ => true) "ts" stK =
      (stK, TickResult.mk [] [] (some (TickError.marketError "AAA"))) :=
  ⟨rfl, rfl,
    (checkPrice_exception_policy mdE (fun _ => true) "ts" stK "AAA" ["BBB"]
      rfl).2 rfl⟩

/-- C10: `get_prev_close_prices` never removes a table entry, its resulting
domain is the prior domain united with the tracked tickers having non-empty
history, and running it twice against the same market data equals running
it once. -/
theorem getPrevClosePrices_monotone_idem (md : MarketData) (st : SystemState) :
    (∀ s v, st.prev_close_prices s = some v →
        ∃ w, (get_prev_close_prices md st).1.prev_close_prices s = some w) ∧
    (∀ s, ((get_prev_close_prices md st).1.prev_close_prices s ≠ none ↔
        (st.prev_close_prices s ≠ none ∨
          (s ∈ st.tickers ∧ md.history s ≠ [])))) ∧
    (get_prev_close_prices md (get_prev_close_prices md st).1).1 =
      (get_prev_close_prices md st).1 := by
  have hchar : ∀ (x : SystemState) (s : Symbol),
      (get_prev_close_prices md x).1.prev_close_prices s =
        if s ∈ x.tickers ∧ (prevCloseOf (md.history s)).isSome
        then prevCloseOf (md.history s) else x.prev_close_prices s := by
    intro x s
    simp only [get_prev_close_prices]
    exact loadGo_fst_apply md x.prev_close_prices x.tickers s
  refine ⟨?_, ?_, ?_⟩
  · intro s v hv
    by_cases hcond : s ∈ st.tickers ∧ (prevCloseOf (md.history s)).isSome
    · obtain ⟨w, hw⟩ := Option.isSome_iff_exists.mp hcond.2
      exact ⟨w, by rw [hchar, if_pos hcond]; exact hw⟩
    · exact ⟨v, by rw [hchar, if_neg hcond]; exact hv⟩
  · intro s
    rw [hchar]
    by_cases hcond : s ∈ st.tickers ∧ (prevCloseOf (md.history s)).isSome
    · have hne : md.history s ≠ [] := (prevCloseOf_isSome _).mp hcond.2
      rw [if_pos hcond]
      exact iff_of_true (Option.ne_none_iff_isSome.mpr hcond.2)
        (Or.inr ⟨hcond.1, hne⟩)
    · rw [if_neg hcond]
      constructor
      · exact fun h => Or.inl h
      · rintro (h | ⟨hmem, hne⟩)
        · exact h
        · exact (hcond ⟨hmem, (prevCloseOf_isSome _).mpr hne⟩).elim
  · apply SystemState.ext
    · rfl
    · funext s
      have ht : (get_prev_close_prices md st).1.tickers = st.tickers := rfl
      rw [hchar, hchar, ht]
      by_cases hcond : s ∈ st.tickers ∧ (prevCloseOf (md.history s)).isSome
      · rw [if_pos hcond, if_pos hcond]
      · rw [if_neg hcond, if_neg hcond]

/-- Fixture state for the C10 witness: a pre-existing entry for OLD and a
tracked ticker NEW with two-day history. -/
def stP : SystemState :=
  SystemState.mk ["NEW"]
    (fun s => if s = "OLD" then some (7 : Price) else none)

/-- Fixture market data for the C10 witness. -/
def mdP : MarketData :=
  MarketData.mk (fun s => if s = "NEW" then [1, 2] else [])
    (fun _ => FetchResult.keyError)

/-- Witness for C10 at a concrete input: the pre-existing entry for OLD
survives the reload. -/
theorem getPrevClosePrices_monotone_idem_witness :
    stP.prev_close_prices "OLD" = some 7 ∧
    (∃ w, (get_prev_close_prices mdP stP).1.prev_close_prices "OLD" = some w) :=
  ⟨by simp [stP],
    (getPrevClosePrices_monotone_idem mdP stP).1 "OLD" 7 (by simp [stP])⟩

end StockNotify
